import Mathlib

/-!
Shallow embedding of the core of the Raytracing-Rust renderer, together with
proofs checking the natural-language specification against it.

Scalars: the Rust code computes with `f32` (type alias `Float`).  The embedding
uses exact rationals `ℚ`; `f32::sqrt` is modelled by `Rat.sqrt` (exact on
perfect squares), and division by zero yields `0` in `ℚ` where Rust produces
infinities or NaN (in the places that matter both reject the intersection).
Transcendental functions (`tan`, `atan2`, `acos`, `π`, degree→radian
conversion) are passed around as an abstract `Trig` record: no claim below
depends on their values.

Sources embedded: `src/ray_tracing/tracing.rs` (primitive intersections),
`src/image/camera.rs` (camera and the buffer-returning `RandomSampler`),
`implementations/src/samplers/random_sampler.rs` (the callback-driven
`RandomSampler`), `examples/cli_frontend/utility.rs` (byte conversion).
The helper types `Axis`, `Sphere`, `AARect`, `AABox`, `Triangle`,
`TriangleMesh`, `Material` are declared in `primitives.rs`, which is not part
of the provided sources; their field sets are reconstructed from their uses in
`tracing.rs`, and the `Axis` helper functions are modelled from the spec
(axis-aligned projection / injection), as noted on each.
-/

/-- Two-dimensional vector over `ℚ`, modelling `ultraviolet::Vec2` (`f32`). -/
structure Vec2 where
  x : ℚ
  y : ℚ
deriving DecidableEq, Repr

/-- Three-dimensional vector over `ℚ`, modelling `ultraviolet::Vec3` / `Vec3` (`f32`). -/
structure Vec3 where
  x : ℚ
  y : ℚ
  z : ℚ
deriving DecidableEq, Repr

instance : Add Vec3 := ⟨fun a b => ⟨a.x + b.x, a.y + b.y, a.z + b.z⟩⟩

instance : Sub Vec3 := ⟨fun a b => ⟨a.x - b.x, a.y - b.y, a.z - b.z⟩⟩

instance : Neg Vec3 := ⟨fun a => ⟨-a.x, -a.y, -a.z⟩⟩

instance : HMul ℚ Vec3 Vec3 := ⟨fun r a => ⟨r * a.x, r * a.y, r * a.z⟩⟩

instance : HMul Vec3 ℚ Vec3 := ⟨fun a r => ⟨a.x * r, a.y * r, a.z * r⟩⟩

instance : HDiv Vec3 ℚ Vec3 := ⟨fun a r => ⟨a.x / r, a.y / r, a.z / r⟩⟩

instance : Add Vec2 := ⟨fun a b => ⟨a.x + b.x, a.y + b.y⟩⟩

instance : HMul ℚ Vec2 Vec2 := ⟨fun r a => ⟨r * a.x, r * a.y⟩⟩

/-- Dot product of three-dimensional vectors. -/
def Vec3.dot (a b : Vec3) : ℚ :=
  a.x * b.x + a.y * b.y + a.z * b.z

/-- Cross product of three-dimensional vectors. -/
def Vec3.cross (a b : Vec3) : Vec3 :=
  ⟨a.y * b.z - a.z * b.y, a.z * b.x - a.x * b.z, a.x * b.y - a.y * b.x⟩

/-- The vector `(1, 1, 1)`, modelling `Vec3::one()`. -/
def Vec3.one : Vec3 := ⟨1, 1, 1⟩

/-- Normalisation `v / |v|`, with `f32::sqrt` modelled by `Rat.sqrt`. -/
def Vec3.normalised (v : Vec3) : Vec3 :=
  v / Rat.sqrt (v.dot v)

/-- Column-major 2×2 matrix, modelling `ultraviolet::Mat2` (`Mat2::new` takes columns). -/
structure Mat2 where
  c0 : Vec2
  c1 : Vec2
deriving DecidableEq, Repr

/-- Matrix–vector product `a * b` for `Mat2`. -/
def Mat2.mulVec (a : Mat2) (b : Vec2) : Vec2 :=
  ⟨a.c0.x * b.x + a.c1.x * b.y, a.c0.y * b.x + a.c1.y * b.y⟩

/-- The numerical epsilon of `tracing.rs`: `pub const EPSILON: f32 = 0.0001;`. -/
def EPSILON : ℚ := 1 / 10000

/-- A ray: origin, (not necessarily normalised) direction, and a time sample.
Declared in `ray.rs` (not among the provided sources); fields per the spec. -/
structure Ray where
  origin : Vec3
  direction : Vec3
  time : ℚ
deriving DecidableEq, Repr

/-- Point at parameter `t` along a ray.  Modelled from the spec: `Ray::at` is
declared in `ray.rs`, which is not among the provided sources; the spec's data
model (origin plus scaled direction) gives `origin + t * direction`. -/
def Ray.at (r : Ray) (t : ℚ) : Vec3 :=
  r.origin + t * r.direction

/-- Abstract record of the transcendental functions used by the code
(`f32::tan`, `f32::atan2`, `f32::acos`, `std::f32::consts::PI`,
`f32::to_radians`).  All claims are independent of their values. -/
structure Trig where
  tan : ℚ → ℚ
  atan2 : ℚ → ℚ → ℚ
  acos : ℚ → ℚ
  pi : ℚ
  toRadians : ℚ → ℚ

/-- A trivial `Trig` instantiation used for concrete evaluations. -/
def trig0 : Trig := ⟨fun _ => 0, fun _ _ => 0, fun _ => 0, 0, fun _ => 0⟩

/-- Material, as used by `tracing.rs`: the intersection code only ever calls
`requires_uv()` on it (the scatter behaviour is outside the embedded core).
Declared in `material.rs`, not among the provided sources. -/
structure Material where
  requiresUv : Bool
deriving DecidableEq, Repr

/-- A material that does not require UV coordinates. -/
def mat0 : Material := ⟨false⟩

/-- The `Hit` record of `tracing.rs`. -/
structure Hit where
  t : ℚ
  point : Vec3
  normal : Vec3
  uv : Option Vec2
  out : Bool
  material : Material
deriving DecidableEq, Repr

/-- The `Sphere` primitive: fields per their uses in `tracing.rs`
(`self.center`, `self.radius`, `self.material`). -/
structure Sphere where
  center : Vec3
  radius : ℚ
  material : Material
deriving DecidableEq, Repr

/-- Embeds `Sphere::get_uv` (tracing.rs lines 148-159). -/
def Sphere.get_uv (τ : Trig) (s : Sphere) (point : Vec3) : Option Vec2 :=
  if (Material.requiresUv s.material) = true then
    let x := (s.center.x - point.x) / s.radius
    let y := (s.center.y - point.y) / s.radius
    let z := (s.center.z - point.z) / s.radius
    let phi := τ.atan2 (-1 * z) x + τ.pi
    let theta := τ.acos (-1 * y)
    some ⟨phi / (2 * τ.pi), theta / τ.pi⟩
  else
    none

/-- The `a` coefficient of the ray–sphere quadratic: `ray.direction.dot(ray.direction)`. -/
def sphereA (ray : Ray) : ℚ :=
  ray.direction.dot ray.direction

/-- The half `b` coefficient: `ray.direction.dot(oc)` with `oc = ray.origin - self.center`. -/
def sphereH (s : Sphere) (ray : Ray) : ℚ :=
  ray.direction.dot (ray.origin - s.center)

/-- The `c` coefficient: `oc.dot(oc) - radius * radius`. -/
def sphereC (s : Sphere) (ray : Ray) : ℚ :=
  (ray.origin - s.center).dot (ray.origin - s.center) - s.radius * s.radius

/-- The discriminant `h * h - a * c` of the ray–sphere quadratic. -/
def sphereDisc (s : Sphere) (ray : Ray) : ℚ :=
  sphereH s ray * sphereH s ray - sphereA ray * sphereC s ray

/-- The smaller quadratic root `(-h - disc.sqrt()) / a`. -/
def sphereT1 (s : Sphere) (ray : Ray) : ℚ :=
  (-sphereH s ray - Rat.sqrt (sphereDisc s ray)) / sphereA ray

/-- The larger quadratic root `(-h + disc.sqrt()) / a`. -/
def sphereT2 (s : Sphere) (ray : Ray) : ℚ :=
  (-sphereH s ray + Rat.sqrt (sphereDisc s ray)) / sphereA ray

/-- The root selected by `Sphere::get_int` (tracing.rs lines 120-124): the
smaller root, replaced by the larger one when negative. -/
def sphereTSel (s : Sphere) (ray : Ray) : ℚ :=
  if sphereT1 s ray < 0 then sphereT2 s ray else sphereT1 s ray

/-- The outward normal `(point - center) / radius` at the selected root
(tracing.rs line 127), before any flip. -/
def sphereNormal0 (s : Sphere) (ray : Ray) : Vec3 :=
  (ray.at (sphereTSel s ray) - s.center) / s.radius

/-- Embeds `Sphere::get_int` (tracing.rs lines 113-144): solve the quadratic,
take the smaller root, fall back to the larger if the smaller is negative,
flip the normal when the ray comes from inside. -/
def Sphere.get_int (τ : Trig) (s : Sphere) (ray : Ray) : Option Hit :=
  if sphereDisc s ray > 0 then
    let t := sphereTSel s ray
    let point := ray.at t
    let normal0 := (point - s.center) / s.radius
    if normal0.dot ray.direction > 0 then
      some { t := t
             point := point + EPSILON * (-normal0)
             normal := -normal0
             uv := s.get_uv τ point
             out := false
             material := s.material }
    else
      some { t := t
             point := point + EPSILON * normal0
             normal := normal0
             uv := s.get_uv τ point
             out := true
             material := s.material }
  else
    none

/-- Embeds the inherited default `PrimitiveTrait::does_int` (tracing.rs lines
30-32): `Sphere` does not override it, so it always returns `false`. -/
def Sphere.does_int (_s : Sphere) (_ray : Ray) : Bool :=
  false

/-- Unit sphere at the origin (the spec's §8 test sphere). -/
def sphere0 : Sphere := ⟨⟨0, 0, 0⟩, 1, mat0⟩

/-- Ray from `(0,0,5)` toward `(0,0,-1)` (the spec's §8 test ray). -/
def ray0 : Ray := ⟨⟨0, 0, 5⟩, ⟨0, 0, -1⟩, 0⟩

/-- The `Axis` helper of `primitives.rs` (not among the provided sources).
Modelled from the spec: an axis-aligned rectangle is parametrised by one of
the three coordinate axes. -/
inductive Axis where
  | X : Axis
  | Y : Axis
  | Z : Axis
deriving DecidableEq, Repr

/-- Modelled from the spec: `Axis::get_axis_value` (declared in `primitives.rs`,
not among the provided sources) reads the component of a point along the axis. -/
def Axis.get_axis_value (a : Axis) (v : Vec3) : ℚ :=
  match a with
  | Axis.X => v.x
  | Axis.Y => v.y
  | Axis.Z => v.z

/-- Modelled from the spec: `Axis::point_without_axis` (declared in
`primitives.rs`, not among the provided sources) projects a point onto "the
other two axes" of the rectangle's plane. -/
def Axis.point_without_axis (a : Axis) (v : Vec3) : Vec2 :=
  match a with
  | Axis.X => ⟨v.y, v.z⟩
  | Axis.Y => ⟨v.x, v.z⟩
  | Axis.Z => ⟨v.x, v.y⟩

/-- Modelled from the spec: `Axis::return_point_with_axis` (declared in
`primitives.rs`, not among the provided sources) keeps only the component
along the axis; it is used to build the rectangle normal and epsilon nudge. -/
def Axis.return_point_with_axis (a : Axis) (v : Vec3) : Vec3 :=
  match a with
  | Axis.X => ⟨v.x, 0, 0⟩
  | Axis.Y => ⟨0, v.y, 0⟩
  | Axis.Z => ⟨0, 0, v.z⟩

/-- The `AARect` primitive: fields per their uses in `tracing.rs`
(`self.k`, `self.axis`, `self.min`, `self.max`, `self.material`). -/
structure AARect where
  k : ℚ
  axis : Axis
  min : Vec2
  max : Vec2
  material : Material
deriving DecidableEq, Repr

/-- The acceptance condition of `AARect::get_int`/`does_int`: the projected 2D
point lies strictly inside the rectangle bounds (tracing.rs lines 176-180). -/
def AARect.inside (r : AARect) (ray : Ray) : Prop :=
  let t := (r.k - r.axis.get_axis_value ray.origin) / r.axis.get_axis_value ray.direction
  let point := ray.at t
  let point_2d := r.axis.point_without_axis point
  point_2d.x > r.min.x ∧ point_2d.x < r.max.x ∧ point_2d.y > r.min.y ∧ point_2d.y < r.max.y

instance (r : AARect) (ray : Ray) : Decidable (r.inside ray) := by
  unfold AARect.inside
  infer_instance

/-- Embeds `AARect::get_uv` (tracing.rs lines 212-221). -/
def AARect.get_uv (r : AARect) (point : Vec3) : Option Vec2 :=
  if (Material.requiresUv r.material) = true then
    let pwa := r.axis.point_without_axis point
    some ⟨(pwa.x - r.min.x) / r.max.x, (pwa.y - r.min.y) / r.max.y⟩
  else
    none

/-- Embeds `AARect::get_int` (tracing.rs lines 169-195): solve `t` from the
plane equation, accept if the projected point is strictly inside the bounds.
No positivity check on `t` is performed. -/
def AARect.get_int (r : AARect) (ray : Ray) : Option Hit :=
  let t := (r.k - r.axis.get_axis_value ray.origin) / r.axis.get_axis_value ray.direction
  let point := ray.at t
  if r.inside ray then
    some { t := t
           point := point + EPSILON * r.axis.return_point_with_axis Vec3.one
           normal := (r.axis.return_point_with_axis ((-1 : ℚ) * ray.direction)).normalised
           uv := r.get_uv point
           out := true
           material := r.material }
  else
    none

/-- Embeds `AARect::does_int` (tracing.rs lines 197-208): the same computation
as `get_int`, returning only the boolean acceptance condition. -/
def AARect.does_int (r : AARect) (ray : Ray) : Bool :=
  if r.inside ray then true else false

/-- The `AABox` primitive: fields per their uses in `tracing.rs`
(`self.rects`, `self.material`); the six constituent rectangles are stored as
a list. -/
structure AABox where
  rects : List AARect
  material : Material
deriving DecidableEq, Repr

/-- Embeds the loop body of `AABox::get_int` (tracing.rs lines 229-247): keep
the hit with smallest `t` among side hits with `t > 0`. -/
def aaboxFold (ray : Ray) (hit : Option Hit) (side : AARect) : Option Hit :=
  match side.get_int ray with
  | Option.none => hit
  | some current_hit =>
    if current_hit.t > 0 then
      match hit with
      | some prev => if current_hit.t < prev.t then some current_hit else some prev
      | Option.none => some current_hit
    else
      hit

/-- Embeds `AABox::get_int` (tracing.rs lines 228-249). -/
def AABox.get_int (b : AABox) (ray : Ray) : Option Hit :=
  b.rects.foldl (aaboxFold ray) Option.none

/-- Embeds `AABox::does_int` (tracing.rs lines 257-264): true as soon as any
side's `does_int` is true (no `t > 0` filter). -/
def AABox.does_int (b : AABox) (ray : Ray) : Bool :=
  b.rects.any fun side => side.does_int ray

/-- Embeds the inherited default `PrimitiveTrait::get_uv` for `AABox`
(tracing.rs lines 40-42; `AABox` does not override it). -/
def AABox.get_uv (_b : AABox) (_point : Vec3) : Option Vec2 :=
  Option.none

/-- The `Triangle` primitive: fields per their uses in `tracing.rs`
(`self.points[0..2]`, `self.normal`, `self.material`). -/
structure Triangle where
  points : Vec3 × Vec3 × Vec3
  normal : Vec3
  material : Material
deriving DecidableEq, Repr

/-- The solved ray parameter `t` of `Triangle::get_int`/`does_int`
(tracing.rs lines 272-276): `(points[0] - origin)·n / direction·n` with
`n = edge1 × edge2`. -/
def triangleT (tri : Triangle) (ray : Ray) : ℚ :=
  let edge1 := tri.points.2.1 - tri.points.1
  let edge2 := tri.points.2.2 - tri.points.1
  let n := edge1.cross edge2
  ((tri.points.1 - ray.origin).dot n) / (ray.direction.dot n)

/-- The solved barycentric-style coordinates `(u, v)` of
`Triangle::get_int`/`does_int` (tracing.rs lines 278-286): a 2×2 linear solve
against the edge Gram matrix. -/
def triangleUV (tri : Triangle) (ray : Ray) : Vec2 :=
  let edge1 := tri.points.2.1 - tri.points.1
  let edge2 := tri.points.2.2 - tri.points.1
  let p := ray.at (triangleT tri ray)
  let p0 := p - tri.points.1
  let b := Vec2.mk (p0.dot edge1) (p0.dot edge2)
  let a := Mat2.mk ⟨edge2.dot edge2, -1 * (edge1.dot edge2)⟩ ⟨-1 * (edge1.dot edge2), edge1.dot edge1⟩
  let idet := 1 / (a.c0.x * a.c1.y - a.c0.y * a.c1.x)
  idet * a.mulVec b

/-- The acceptance condition of `Triangle::get_int`/`does_int` (tracing.rs
line 288): `t > EPSILON && u > 0 && v > 0 && u + v < 1`. -/
def Triangle.accepts (tri : Triangle) (ray : Ray) : Prop :=
  triangleT tri ray > EPSILON ∧ (triangleUV tri ray).x > 0 ∧ (triangleUV tri ray).y > 0 ∧
    (triangleUV tri ray).x + (triangleUV tri ray).y < 1

instance (tri : Triangle) (ray : Ray) : Decidable (tri.accepts ray) := by
  unfold Triangle.accepts
  infer_instance

/-- Embeds `Triangle::get_int` (tracing.rs lines 271-307). -/
def Triangle.get_int (tri : Triangle) (ray : Ray) : Option Hit :=
  let t := triangleT tri ray
  let uv := triangleUV tri ray
  if tri.accepts ray then
    let point := ray.at t
    if Vec3.dot tri.normal ray.direction > 0 then
      some { t := t
             point := point + EPSILON * (-tri.normal)
             normal := -tri.normal
             uv := some uv
             out := false
             material := tri.material }
    else
      some { t := t
             point := point + EPSILON * tri.normal
             normal := tri.normal
             uv := some uv
             out := true
             material := tri.material }
  else
    Option.none

/-- Embeds `Triangle::does_int` (tracing.rs lines 311-333): the same solve and
the same acceptance condition as `get_int`, returning a boolean. -/
def Triangle.does_int (tri : Triangle) (ray : Ray) : Bool :=
  if tri.accepts ray then true else false

/-- Embeds the inherited default `PrimitiveTrait::get_uv` for `Triangle`
(tracing.rs lines 40-42; `Triangle` does not override it). -/
def Triangle.get_uv (_tri : Triangle) (_point : Vec3) : Option Vec2 :=
  Option.none

/-- The `TriangleMesh` primitive: fields per their uses in `tracing.rs`
(`self.mesh`, `self.min`, `self.max`, `self.material`). -/
structure TriangleMesh where
  mesh : List Triangle
  min : Vec3
  max : Vec3
  material : Material
deriving DecidableEq, Repr

/-- Embeds the loop body of `TriangleMesh::get_int` (tracing.rs lines
344-362): keep the hit with smallest `t` among triangle hits with
`t > EPSILON`. -/
def meshFold (ray : Ray) (hit : Option Hit) (side : Triangle) : Option Hit :=
  match side.get_int ray with
  | Option.none => hit
  | some current_hit =>
    if current_hit.t > EPSILON then
      match hit with
      | some prev => if current_hit.t < prev.t then some current_hit else some prev
      | Option.none => some current_hit
    else
      hit

/-- Embeds `TriangleMesh::get_int` (tracing.rs lines 343-364). -/
def TriangleMesh.get_int (m : TriangleMesh) (ray : Ray) : Option Hit :=
  m.mesh.foldl (meshFold ray) Option.none

/-- Embeds `TriangleMesh::does_int` (tracing.rs lines 372-379). -/
def TriangleMesh.does_int (m : TriangleMesh) (ray : Ray) : Bool :=
  m.mesh.any fun tri => tri.does_int ray

/-- Embeds the inherited default `PrimitiveTrait::get_uv` for `TriangleMesh`
(tracing.rs lines 40-42; `TriangleMesh` does not override it). -/
def TriangleMesh.get_uv (_m : TriangleMesh) (_point : Vec3) : Option Vec2 :=
  Option.none

/-- The closed `Primitive` sum type of `primitives.rs` (fields per use in
`tracing.rs`), including the `None` sentinel variant. -/
inductive Primitive where
  | sphere : Sphere → Primitive
  | aarect : AARect → Primitive
  | aabox : AABox → Primitive
  | triangle : Triangle → Primitive
  | triangleMesh : TriangleMesh → Primitive
  | none : Primitive
deriving DecidableEq, Repr

/-- Embeds the enum-level dispatch `Primitive::get_uv` (tracing.rs lines
89-99): the match over variants is evaluated, its result is bound to a
discarded statement value exactly as in the source, and the function then
returns `None`.  The Rust `Primitive::None` arm panics and never returns; its
value in this model is never relied upon (the theorem about this function
excludes that variant). -/
def Primitive.get_uv (τ : Trig) (p : Primitive) (point : Vec3) : Option Vec2 :=
  let _ :=
    match p with
    | Primitive.sphere s => s.get_uv τ point
    | Primitive.aarect r => r.get_uv point
    | Primitive.aabox b => b.get_uv point
    | Primitive.triangle tr => tr.get_uv point
    | Primitive.triangleMesh m => m.get_uv point
    | Primitive.none => Option.none
  Option.none

/-- The `Camera` of `camera.rs` (lines 149-160), with `f32` fields over `ℚ`. -/
structure Camera where
  viewport_width : ℚ
  viewport_height : ℚ
  aspect_ratio : ℚ
  origin : Vec3
  vertical : Vec3
  horizontal : Vec3
  u : Vec3
  v : Vec3
  lower_left : Vec3
  lens_radius : ℚ
deriving DecidableEq, Repr

/-- Embeds `Camera::new` (camera.rs lines 162-196).  `fov.to_radians().tan()`
is taken from the abstract `Trig` record; `normalised` uses `Rat.sqrt`. -/
def Camera.new (τ : Trig) (origin lookat vup : Vec3) (fov aspect_ratio aperture focus_dist : ℚ) :
    Camera :=
  let viewport_width := 2 * τ.tan (τ.toRadians fov / 2)
  let viewport_height := viewport_width / aspect_ratio
  let w := (origin - lookat).normalised
  let u := (w.cross vup).normalised
  let v := u.cross w
  let horizontal := focus_dist * u * viewport_width
  let vertical := focus_dist * v * viewport_height
  let lower_left := origin - horizontal / (2 : ℚ) - vertical / (2 : ℚ) - focus_dist * w
  { viewport_width := viewport_width
    viewport_height := viewport_height
    aspect_ratio := aspect_ratio
    origin := origin
    vertical := vertical
    horizontal := horizontal
    u := u
    v := v
    lower_left := lower_left
    lens_radius := aperture / 2 }

/-- Embeds `Camera::get_ray` (camera.rs lines 198-204).  The Rust code stamps
the ray with `random_float()`; the random time sample is passed in as an
oracle argument `time`. -/
def Camera.get_ray (c : Camera) (u v : ℚ) (time : ℚ) : Ray :=
  { origin := c.origin
    direction := c.lower_left + c.horizontal * u + c.vertical * v - c.origin
    time := time }

/-- The `SamplerProgress` accumulation buffer of `camera.rs` (lines 11-25). -/
structure SamplerProgress where
  samples_completed : ℕ
  rays_shot : ℕ
  current_image : List ℚ
deriving DecidableEq, Repr

/-- Embeds `SamplerProgress::new` (camera.rs lines 18-24). -/
def SamplerProgress.new (pixel_num channels : ℕ) : SamplerProgress :=
  { samples_completed := 0
    rays_shot := 0
    current_image := List.replicate (pixel_num * channels) 0 }

/-- Oracle for one traced pixel sample: given the sample-iteration index and
the flat pixel index, returns the colour and ray count that
`Ray::get_colour(&mut camera.get_ray(u, v), sky, bvh)` produces for that
pixel in that pass.  The per-pixel random offsets, the camera and the scene
are all folded into this oracle; the sampler claims quantify over it. -/
def TraceFn : Type :=
  ℕ → ℕ → Vec3 × ℕ

/-- Embeds one full sample pass of `sample_image` (camera.rs lines 99-123 and
identically implementations/random_sampler.rs lines 48-74): every pixel of the
`current` buffer is overwritten with the traced colour of this pass, and the
per-chunk ray counts are summed into `rays_shot`.  The parallel chunking
writes each pixel exactly once, so the resulting buffer content is the
per-pixel trace result laid out flat. -/
def renderPass (w h : ℕ) (trace : TraceFn) (i : ℕ) : SamplerProgress :=
  { samples_completed := 0
    rays_shot := ((List.range (w * h)).map fun p => (trace i p).2).sum
    current_image :=
      (List.range (w * h)).flatMap fun p => [(trace i p).1.x, (trace i p).1.y, (trace i p).1.z] }

/-- State of the two alternating accumulator buffers after the first `n`
iterations of the sampling loop (camera.rs lines 84-125,
implementations/random_sampler.rs lines 39-83): iteration `i` writes the
second buffer when `i` is even and the first when `i` is odd. -/
def runBufs (w h : ℕ) (trace : TraceFn) : ℕ → SamplerProgress × SamplerProgress
  | 0 => (SamplerProgress.new (w * h) 3, SamplerProgress.new (w * h) 3)
  | n + 1 =>
    let bufs := runBufs w h trace n
    if n % 2 = 0 then (bufs.1, renderPass w h trace n) else (renderPass w h trace n, bufs.2)

/-- Embeds `RandomSampler::sample_image` of camera.rs (lines 52-146): run the
sampling loop, pick the buffer of matching parity as `previous`, then fold it
once into the zero-initialised `presentation_buffer` via
`*pres += (acc - *pres) / samples_per_pixel` and return that buffer. -/
def RandomSampler.sample_image (samples_per_pixel w h : ℕ) (trace : TraceFn) : SamplerProgress :=
  let bufs := runBufs w h trace samples_per_pixel
  let previous := if samples_per_pixel % 2 = 0 then bufs.1 else bufs.2
  { samples_completed := 0 + 1
    rays_shot := 0 + previous.rays_shot
    current_image :=
      List.zipWith (fun pres acc => pres + (acc - pres) / (samples_per_pixel : ℚ))
        (List.replicate (w * h * 3) 0) previous.current_image }

/-- Identity of a physical accumulator buffer: `false` is
`accumulator_buffers.0`, `true` is `accumulator_buffers.1`. -/
def BufId : Type :=
  Bool

/-- The physical buffer written as `current` during iteration `i`: the second
buffer when `i % 2 == 0`, the first otherwise (random_sampler.rs lines 40-44). -/
def curId (i : ℕ) : Bool :=
  decide (i % 2 = 0)

/-- The physical buffer read as `previous` during iteration `i`: the one not
written during that iteration. -/
def prevId (i : ℕ) : Bool :=
  !curId i

/-- One observable presentation-callback invocation of the implementations
sampler: the physical identity of the buffer handed to the callback, the
buffer contents at that moment, and the sample-count argument. -/
structure CallbackEvent where
  buf : Bool
  progress : SamplerProgress
  count : ℕ
deriving DecidableEq, Repr

/-- One iteration of the loop of
`RandomSampler::sample_image` in implementations/random_sampler.rs (lines
39-83): compute the current pass into the buffer of parity `i`, then, if
`i != 0`, invoke the presentation callback on the `previous` buffer.  The
callback invocations are recorded as events. -/
def implIter (w h : ℕ) (trace : TraceFn)
    (st : (SamplerProgress × SamplerProgress) × List CallbackEvent) (i : ℕ) :
    (SamplerProgress × SamplerProgress) × List CallbackEvent :=
  let bufs := st.1
  if i % 2 = 0 then
    ((bufs.1, renderPass w h trace i),
      st.2 ++ if i ≠ 0 then [⟨false, bufs.1, i⟩] else [])
  else
    ((renderPass w h trace i, bufs.2),
      st.2 ++ if i ≠ 0 then [⟨true, bufs.2, i⟩] else [])

/-- The loop of the implementations sampler over iterations `0..n`. -/
def implLoop (w h : ℕ) (trace : TraceFn) :
    ℕ → (SamplerProgress × SamplerProgress) × List CallbackEvent
  | 0 => ((SamplerProgress.new (w * h) 3, SamplerProgress.new (w * h) 3), [])
  | n + 1 => implIter w h trace (implLoop w h trace n) n

/-- Embeds `RandomSampler::sample_image` of
implementations/random_sampler.rs (lines 9-95), observed through its
presentation-callback invocations: after the loop, the callback is invoked
once more on the buffer of parity `samples_per_pixel` with the full sample
count. -/
def ImplRandomSampler.sample_image (samples_per_pixel w h : ℕ) (trace : TraceFn) :
    List CallbackEvent :=
  let st := implLoop w h trace samples_per_pixel
  let previous : Bool × SamplerProgress :=
    if samples_per_pixel % 2 = 0 then (false, st.1.1) else (true, st.1.2)
  st.2 ++ [⟨previous.1, previous.2, samples_per_pixel⟩]

/-- Embeds the byte conversion of `get_progress_output`
(examples/cli_frontend/utility.rs lines 117-121):
`(value.sqrt() * 255.0) as u8`.  The Rust `as u8` cast truncates toward zero
and saturates at the bounds (NaN and negative values go to 0, values at or
above 256 go to 255); since `Rat.sqrt` is nonnegative, truncation toward zero
is the floor, and the saturations are `Int.toNat` and `min _ 255`. -/
def channel_to_byte (value : ℚ) : ℕ :=
  min (Int.toNat ⌊Rat.sqrt value * 255⌋) 255

/-! Unfolding lemmas for the vector operations, used to evaluate the embedding
on concrete inputs. -/

lemma vec3_add (a b : Vec3) : a + b = ⟨a.x + b.x, a.y + b.y, a.z + b.z⟩ := rfl

lemma vec3_sub (a b : Vec3) : a - b = ⟨a.x - b.x, a.y - b.y, a.z - b.z⟩ := rfl

lemma vec3_neg (a : Vec3) : -a = ⟨-a.x, -a.y, -a.z⟩ := rfl

lemma vec3_smul (r : ℚ) (a : Vec3) : r * a = ⟨r * a.x, r * a.y, r * a.z⟩ := rfl

lemma vec3_muls (a : Vec3) (r : ℚ) : a * r = ⟨a.x * r, a.y * r, a.z * r⟩ := rfl

lemma vec3_divs (a : Vec3) (r : ℚ) : a / r = ⟨a.x / r, a.y / r, a.z / r⟩ := rfl

lemma vec2_add (a b : Vec2) : a + b = ⟨a.x + b.x, a.y + b.y⟩ := rfl

lemma vec2_smul (r : ℚ) (a : Vec2) : r * a = ⟨r * a.x, r * a.y⟩ := rfl

/-- Evaluation of `Rat.sqrt` on a perfect square with a given nonnegative root. -/
lemma rat_sqrt_eval {q r : ℚ} (h : 0 ≤ r) (he : r * r = q) : Rat.sqrt q = r := by
  rw [← he, Rat.sqrt_eq, abs_of_nonneg h]

/-- Claim C6: for the sphere with center `(0,0,0)` and radius `1` (with any
material) and the ray with origin `(0,0,5)` and direction `(0,0,-1)`,
`Sphere::get_int` returns a hit with `t = 4`, normal `(0,0,1)` and
`out = true`, for any interpretation of the transcendental functions. -/
theorem sphere_unit_axis_ray_hits_t4 (τ : Trig) (m : Material) :
    (Sphere.get_int τ ⟨⟨0, 0, 0⟩, 1, m⟩ ray0).map (fun h => (h.t, h.normal, h.out)) =
      some (4, ⟨0, 0, 1⟩, true) := by
  have hdisc : sphereDisc ⟨⟨0, 0, 0⟩, 1, m⟩ ray0 = 1 := by
    norm_num [sphereDisc, sphereA, sphereH, sphereC, ray0, Vec3.dot, vec3_sub]
  have hsqrt : Rat.sqrt 1 = 1 := rat_sqrt_eval (by norm_num) (by norm_num)
  have ht1 : sphereT1 ⟨⟨0, 0, 0⟩, 1, m⟩ ray0 = 4 := by
    rw [sphereT1, hdisc, hsqrt]
    norm_num [sphereH, sphereA, ray0, Vec3.dot, vec3_sub]
  have htsel : sphereTSel ⟨⟨0, 0, 0⟩, 1, m⟩ ray0 = 4 := by
    rw [sphereTSel, ht1]
    norm_num
  rw [Sphere.get_int, if_pos (by rw [hdisc]; norm_num)]
  rw [htsel]
  norm_num [ray0, Ray.at, Vec3.dot, vec3_add, vec3_sub, vec3_smul, vec3_divs]

/-- Claim C7: `Triangle::get_int` and `Triangle::does_int` accept exactly when
the solved parameters satisfy `t > EPSILON`, `u > 0`, `v > 0` and `u + v < 1`
(edge and vertex values excluded), and otherwise report no hit. -/
theorem triangle_accept_condition (tri : Triangle) (ray : Ray) :
    (Triangle.does_int tri ray = true ↔
      (EPSILON < triangleT tri ray ∧ 0 < (triangleUV tri ray).x ∧
        0 < (triangleUV tri ray).y ∧ (triangleUV tri ray).x + (triangleUV tri ray).y < 1)) ∧
    ((Triangle.get_int tri ray).isSome = true ↔
      (EPSILON < triangleT tri ray ∧ 0 < (triangleUV tri ray).x ∧
        0 < (triangleUV tri ray).y ∧ (triangleUV tri ray).x + (triangleUV tri ray).y < 1)) := by
  constructor
  · rw [Triangle.does_int]
    split_ifs with h
    · simp only [true_iff]
      exact h
    · simp only [Bool.false_eq_true, false_iff]
      exact h
  · rw [Triangle.get_int]
    split_ifs with h h2
    · simp only [Option.isSome_some, true_iff]
      exact h
    · simp only [Option.isSome_some, true_iff]
      exact h
    · simp only [Option.isSome_none, Bool.false_eq_true, false_iff]
      exact h

/-- Triangle with vertices `(0,0,0)`, `(1,0,0)`, `(0,1,0)` and stored normal
`(0,0,1)`. -/
def tri0 : Triangle := ⟨(⟨0, 0, 0⟩, ⟨1, 0, 0⟩, ⟨0, 1, 0⟩), ⟨0, 0, 1⟩, mat0⟩

/-- Ray from `(0.3, 0.3, 1)` toward `(0,0,-1)`, hitting `tri0` at barycentric
coordinates `u = v = 0.3`. -/
def rayT : Ray := ⟨⟨3/10, 3/10, 1⟩, ⟨0, 0, -1⟩, 0⟩

/-- Concrete evaluation: the solved `t` for `tri0` and `rayT` is `1`. -/
lemma triangleT_tri0_eval : triangleT tri0 rayT = 1 := by
  norm_num [triangleT, tri0, rayT, Vec3.cross, Vec3.dot, vec3_sub]

/-- Concrete evaluation: the solved `(u, v)` for `tri0` and `rayT` is `(0.3, 0.3)`. -/
lemma triangleUV_tri0_eval : triangleUV tri0 rayT = ⟨3/10, 3/10⟩ := by
  rw [triangleUV]
  rw [triangleT_tri0_eval]
  norm_num [tri0, rayT, Vec3.cross, Vec3.dot, Mat2.mulVec, Ray.at,
    vec3_sub, vec3_add, vec3_smul, vec2_smul]

/-- Witness for claim C7: at `tri0` and `rayT` the solved parameters are
strictly interior (`t = 1`, `u = v = 0.3`), and the theorem yields
`does_int = true` there. -/
theorem triangle_accept_condition_witness : Triangle.does_int tri0 rayT = true := by
  refine (triangle_accept_condition tri0 rayT).1.mpr ?_
  rw [triangleT_tri0_eval, triangleUV_tri0_eval]
  norm_num [EPSILON]

/-- Hits stored by the mesh fold always satisfy the fold's own filter
`t > EPSILON`. -/
lemma mesh_foldl_t_bound (ray : Ray) (l : List Triangle) (acc : Option Hit)
    (hacc : ∀ h, acc = some h → EPSILON < h.t) :
    ∀ h, l.foldl (meshFold ray) acc = some h → EPSILON < h.t := by
  induction l generalizing acc with
  | nil => exact hacc
  | cons head tail ih =>
    intro h hfold
    refine ih (meshFold ray acc head) ?_ h hfold
    intro h' he
    unfold meshFold at he
    split at he
    · exact hacc h' he
    · split_ifs at he with hch
      · split at he
        · split_ifs at he with hlt
          · cases he
            exact hch
          · cases he
            exact hacc h' rfl
        · cases he
          exact hch
      · exact hacc h' he

/-- Every hit returned by `Triangle::get_int` satisfies `t > EPSILON` (the
acceptance condition includes it). -/
lemma triangle_hit_t (tri : Triangle) (ray : Ray) (h : Hit)
    (he : tri.get_int ray = some h) : EPSILON < h.t := by
  rw [Triangle.get_int] at he
  split_ifs at he with hacc hflip
  · cases he
    exact hacc.1
  · cases he
    exact hacc.1

/-- Every hit returned by `TriangleMesh::get_int` satisfies `t > EPSILON`
(the fold's filter enforces it). -/
lemma mesh_hit_t (m : TriangleMesh) (ray : Ray) (h : Hit)
    (he : m.get_int ray = some h) : EPSILON < h.t := by
  refine mesh_foldl_t_bound ray m.mesh Option.none ?_ h he
  intro h' he'
  cases he'

/-- Claim C2 (amended): every hit returned by `Triangle::get_int` or
`TriangleMesh::get_int` has `t > EPSILON`.  (`Sphere::get_int`,
`AARect::get_int` and `AABox::get_int` do not guarantee this; see the
counterexample.) -/
theorem hit_t_above_epsilon_triangle_mesh :
    (∀ (tri : Triangle) (ray : Ray) (h : Hit), tri.get_int ray = some h → EPSILON < h.t) ∧
    (∀ (m : TriangleMesh) (ray : Ray) (h : Hit), m.get_int ray = some h → EPSILON < h.t) :=
  ⟨triangle_hit_t, mesh_hit_t⟩

/-- Witness for claim C2: the triangle hit of `tri0` by `rayT` exists
(`get_int` returns it, evaluated concretely) and the theorem gives
`EPSILON < 1` for its distance. -/
theorem hit_t_above_epsilon_witness : EPSILON < (1 : ℚ) := by
  have he : Triangle.get_int tri0 rayT =
      some { t := 1
             point := ⟨3/10, 3/10, 1/10000⟩
             normal := ⟨0, 0, 1⟩
             uv := some ⟨3/10, 3/10⟩
             out := true
             material := mat0 } := by
    rw [Triangle.get_int]
    rw [if_pos ?side]
    case side =>
      show EPSILON < triangleT tri0 rayT ∧ _
      rw [triangleT_tri0_eval, triangleUV_tri0_eval]
      norm_num [EPSILON]
    rw [if_neg ?flip]
    case flip =>
      norm_num [tri0, rayT, Vec3.dot]
    rw [triangleT_tri0_eval, triangleUV_tri0_eval]
    norm_num [tri0, rayT, Ray.at, EPSILON, vec3_add, vec3_smul]
  exact hit_t_above_epsilon_triangle_mesh.1 tri0 rayT _ he

/-- Sphere of radius `1` centered at `(0,0,5)`, entirely behind `rayB`. -/
def sphereB : Sphere := ⟨⟨0, 0, 5⟩, 1, mat0⟩

/-- Ray from the origin toward `(0,0,-1)`, pointing away from `sphereB`. -/
def rayB : Ray := ⟨⟨0, 0, 0⟩, ⟨0, 0, -1⟩, 0⟩

/-- Unit axis-aligned rectangle in the plane `z = 0`. -/
def rectB : AARect := ⟨0, Axis.Z, ⟨0, 0⟩, ⟨1, 1⟩, mat0⟩

/-- Ray from `(0.5, 0.5, 10)` toward `(0,0,1)`, pointing away from `rectB`. -/
def rayC : Ray := ⟨⟨1/2, 1/2, 10⟩, ⟨0, 0, 1⟩, 0⟩

/-- Unit axis-aligned box `[0,1]^3` built from its six rectangles. -/
def boxB : AABox :=
  ⟨[⟨0, Axis.Z, ⟨0, 0⟩, ⟨1, 1⟩, mat0⟩,
    ⟨1, Axis.Z, ⟨0, 0⟩, ⟨1, 1⟩, mat0⟩,
    ⟨0, Axis.X, ⟨0, 0⟩, ⟨1, 1⟩, mat0⟩,
    ⟨1, Axis.X, ⟨0, 0⟩, ⟨1, 1⟩, mat0⟩,
    ⟨0, Axis.Y, ⟨0, 0⟩, ⟨1, 1⟩, mat0⟩,
    ⟨1, Axis.Y, ⟨0, 0⟩, ⟨1, 1⟩, mat0⟩], mat0⟩

/-- Ray starting just above the bottom face of `boxB` (distance `0.00005`,
half of `EPSILON`), pointing down. -/
def rayD : Ray := ⟨⟨1/2, 1/2, 1/20000⟩, ⟨0, 0, -1⟩, 0⟩

/-- Counterexample to claim C2 as stated: `Sphere::get_int` returns a hit with
`t = -4` for a sphere behind the ray, `AARect::get_int` returns a hit with
`t = -10` for a rectangle behind the ray, and `AABox::get_int` returns a hit
with `t = 0.00005 <= EPSILON`; none of these `t` values exceeds `EPSILON`. -/
theorem hit_t_above_epsilon_counterexample :
    ((Sphere.get_int trig0 sphereB rayB).map Hit.t = some (-4) ∧ ¬ EPSILON < (-4 : ℚ)) ∧
    ((AARect.get_int rectB rayC).map Hit.t = some (-10) ∧ ¬ EPSILON < (-10 : ℚ)) ∧
    ((AABox.get_int boxB rayD).map Hit.t = some (1/20000) ∧ ¬ EPSILON < (1/20000 : ℚ)) := by
  refine ⟨⟨?sp, by norm_num [EPSILON]⟩, ⟨?re, by norm_num [EPSILON]⟩, ⟨?bo, by norm_num [EPSILON]⟩⟩
  case sp =>
    have hdisc : sphereDisc sphereB rayB = 1 := by
      norm_num [sphereDisc, sphereA, sphereH, sphereC, sphereB, rayB, Vec3.dot, vec3_sub]
    have hsqrt : Rat.sqrt 1 = 1 := rat_sqrt_eval (by norm_num) (by norm_num)
    have ht1 : sphereT1 sphereB rayB = -6 := by
      rw [sphereT1, hdisc, hsqrt]
      norm_num [sphereH, sphereA, sphereB, rayB, Vec3.dot, vec3_sub]
    have ht2 : sphereT2 sphereB rayB = -4 := by
      rw [sphereT2, hdisc, hsqrt]
      norm_num [sphereH, sphereA, sphereB, rayB, Vec3.dot, vec3_sub]
    have htsel : sphereTSel sphereB rayB = -4 := by
      rw [sphereTSel, ht1, ht2]
      norm_num
    rw [Sphere.get_int, if_pos (by rw [hdisc]; norm_num)]
    rw [htsel]
    norm_num [sphereB, rayB, Ray.at, Vec3.dot, vec3_add, vec3_sub, vec3_smul, vec3_divs]
  case re =>
    rw [AARect.get_int, if_pos ?ins]
    case ins =>
      rw [AARect.inside]
      norm_num [rectB, rayC, Axis.get_axis_value, Axis.point_without_axis, Ray.at,
        vec3_add, vec3_smul]
    norm_num [rectB, rayC, Axis.get_axis_value]
  case bo =>
    norm_num [AABox.get_int, boxB, rayD, aaboxFold, AARect.get_int, AARect.inside,
      Axis.get_axis_value, Axis.point_without_axis, Ray.at, vec3_add, vec3_smul,
      List.foldl_cons, List.foldl_nil]

/-- An if-expression with `some` in both branches is always `isSome`. -/
lemma isSome_if_some {c : Prop} [Decidable c] (a b : Hit) :
    (if c then some a else some b).isSome = true := by
  split_ifs <;> rfl

/-- For `AARect` the boolean test and the full intersection agree: both use
the very same acceptance condition. -/
lemma rect_does_iff_get (r : AARect) (ray : Ray) :
    r.does_int ray = (r.get_int ray).isSome := by
  rw [AARect.does_int, AARect.get_int]
  split_ifs with h <;> rfl

/-- For `Triangle` the boolean test and the full intersection agree: both use
the very same solve and acceptance condition. -/
lemma triangle_does_iff_get (tri : Triangle) (ray : Ray) :
    tri.does_int ray = (tri.get_int ray).isSome := by
  rw [Triangle.does_int, Triangle.get_int]
  split_ifs with h h2 <;> rfl

/-- One step of the mesh fold produces a hit exactly when the accumulator
already had one or the triangle intersects (its hits always pass the
`t > EPSILON` filter). -/
lemma meshFold_isSome (ray : Ray) (acc : Option Hit) (tri : Triangle) :
    (meshFold ray acc tri).isSome = (acc.isSome || tri.does_int ray) := by
  unfold meshFold
  cases hg : tri.get_int ray with
  | none =>
    have hd : tri.does_int ray = false := by
      rw [triangle_does_iff_get, hg]
      rfl
    simp [hd]
  | some ch =>
    have hd : tri.does_int ray = true := by
      rw [triangle_does_iff_get, hg]
      rfl
    have hch : EPSILON < ch.t := triangle_hit_t tri ray ch hg
    simp only [hd, Bool.or_true]
    rw [if_pos hch]
    cases acc with
    | none => rfl
    | some prev =>
      show (if ch.t < prev.t then some ch else some prev).isSome = true
      split_ifs <;> rfl

/-- The mesh fold over a triangle list produces a hit exactly when the
accumulator had one or some triangle's boolean test succeeds. -/
lemma mesh_foldl_isSome (ray : Ray) (l : List Triangle) (acc : Option Hit) :
    (l.foldl (meshFold ray) acc).isSome = (acc.isSome || l.any fun tri => tri.does_int ray) := by
  induction l generalizing acc with
  | nil => simp
  | cons head tail ih =>
    rw [List.foldl_cons, ih, meshFold_isSome, List.any_cons, Bool.or_assoc]

/-- Claim C3 (amended): `does_int` returns true iff `get_int` returns `Some`
for `AARect`, `Triangle` and `TriangleMesh`.  (`Sphere` inherits the default
`does_int`, which always returns false, and `AABox::does_int` omits the
`t > 0` filter of `AABox::get_int`, so those two variants can disagree; see
the counterexample.) -/
theorem does_int_iff_get_int_some :
    (∀ (r : AARect) (ray : Ray), r.does_int ray = (r.get_int ray).isSome) ∧
    (∀ (tri : Triangle) (ray : Ray), tri.does_int ray = (tri.get_int ray).isSome) ∧
    (∀ (m : TriangleMesh) (ray : Ray), m.does_int ray = (m.get_int ray).isSome) := by
  refine ⟨rect_does_iff_get, triangle_does_iff_get, ?_⟩
  intro m ray
  rw [TriangleMesh.get_int, mesh_foldl_isSome, TriangleMesh.does_int]
  rfl

/-- Counterexample to claim C3 as stated: the unit sphere at the origin hit
frontally has `get_int = Some` but `does_int = false` (the inherited default),
and the unit box probed by a ray pointing away from it has `does_int = true`
(a rectangle's plane test succeeds behind the ray) but `get_int = None`
(the `t > 0` filter rejects every side hit). -/
theorem does_int_iff_get_int_counterexample :
    (Sphere.does_int sphere0 ray0 = false ∧ (Sphere.get_int trig0 sphere0 ray0).isSome = true) ∧
    (AABox.does_int boxB rayC = true ∧ (AABox.get_int boxB rayC).isSome = false) := by
  refine ⟨⟨rfl, ?sp⟩, ⟨?bd, ?bg⟩⟩
  case sp =>
    have hdisc : sphereDisc sphere0 ray0 = 1 := by
      norm_num [sphereDisc, sphereA, sphereH, sphereC, sphere0, ray0, Vec3.dot, vec3_sub]
    rw [Sphere.get_int, if_pos (by rw [hdisc]; norm_num)]
    exact isSome_if_some _ _
  case bd =>
    norm_num [AABox.does_int, boxB, rayC, AARect.does_int, AARect.inside,
      Axis.get_axis_value, Axis.point_without_axis, Ray.at, vec3_add, vec3_smul,
      List.any_cons]
  case bg =>
    norm_num [AABox.get_int, boxB, rayC, aaboxFold, AARect.get_int, AARect.inside,
      Axis.get_axis_value, Axis.point_without_axis, Ray.at, vec3_add, vec3_smul,
      List.foldl_cons, List.foldl_nil]

/-- Claim C5: `Sphere::get_int` returns `None` exactly when the discriminant
is `<= 0`; otherwise it returns a hit whose `t` is the smaller root
`sphereT1` (the roots are ordered when `a > 0`), falling back to the larger
root `sphereT2` when the smaller is negative, and it flips the returned
normal and sets `out = false` exactly when the outward normal has positive
dot product with the ray direction. -/
theorem sphere_get_int_characterisation (τ : Trig) (s : Sphere) (ray : Ray) :
    (sphereDisc s ray ≤ 0 → Sphere.get_int τ s ray = Option.none) ∧
    (0 < sphereDisc s ray →
      (Sphere.get_int τ s ray).map Hit.t = some (sphereTSel s ray) ∧
      sphereTSel s ray = (if sphereT1 s ray < 0 then sphereT2 s ray else sphereT1 s ray) ∧
      (0 < sphereA ray → sphereT1 s ray ≤ sphereT2 s ray) ∧
      (0 < (sphereNormal0 s ray).dot ray.direction →
        (Sphere.get_int τ s ray).map Hit.normal = some (-sphereNormal0 s ray) ∧
        (Sphere.get_int τ s ray).map Hit.out = some false) ∧
      (¬ 0 < (sphereNormal0 s ray).dot ray.direction →
        (Sphere.get_int τ s ray).map Hit.normal = some (sphereNormal0 s ray) ∧
        (Sphere.get_int τ s ray).map Hit.out = some true)) := by
  have hroots : 0 < sphereA ray → sphereT1 s ray ≤ sphereT2 s ray := by
    intro ha
    have hs := Rat.sqrt_nonneg (sphereDisc s ray)
    rw [sphereT1, sphereT2]
    exact (div_le_div_iff_of_pos_right ha).mpr (by linarith)
  constructor
  · intro hle
    rw [Sphere.get_int, if_neg (not_lt.mpr hle)]
  · intro hgt
    simp only [Sphere.get_int]
    rw [if_pos hgt]
    rw [show ((ray.at (sphereTSel s ray) - s.center) / s.radius) = sphereNormal0 s ray from rfl]
    by_cases hflip : (sphereNormal0 s ray).dot ray.direction > 0
    · rw [if_pos hflip]
      exact ⟨rfl, rfl, hroots, fun _ => ⟨rfl, rfl⟩, fun hn => absurd hflip hn⟩
    · rw [if_neg hflip]
      exact ⟨rfl, rfl, hroots, fun hn => absurd hn hflip, fun _ => ⟨rfl, rfl⟩⟩

/-- Witness for claim C5: at the unit sphere and the frontal test ray the
discriminant is `1 > 0` and the theorem yields the selected root `t = 4`. -/
theorem sphere_get_int_characterisation_witness :
    0 < sphereDisc sphere0 ray0 ∧
      (Sphere.get_int trig0 sphere0 ray0).map Hit.t = some 4 := by
  have hdisc : sphereDisc sphere0 ray0 = 1 := by
    norm_num [sphereDisc, sphereA, sphereH, sphereC, sphere0, ray0, Vec3.dot, vec3_sub]
  have hgt : 0 < sphereDisc sphere0 ray0 := by
    rw [hdisc]
    norm_num
  have hsqrt : Rat.sqrt 1 = 1 := rat_sqrt_eval (by norm_num) (by norm_num)
  have ht1 : sphereT1 sphere0 ray0 = 4 := by
    rw [sphereT1, hdisc, hsqrt]
    norm_num [sphereH, sphereA, sphere0, ray0, Vec3.dot, vec3_sub]
  have htsel : sphereTSel sphere0 ray0 = 4 := by
    rw [sphereTSel, ht1]
    norm_num
  have h1 := ((sphere_get_int_characterisation trig0 sphere0 ray0).2 hgt).1
  rw [htsel] at h1
  exact ⟨hgt, h1⟩

/-- Claim C10: for every primitive other than the `None` sentinel (whose Rust
arm panics), the enum-level dispatch `Primitive::get_uv` returns `None`: the
per-variant UV result is computed and discarded. -/
theorem primitive_get_uv_returns_none (τ : Trig) (p : Primitive) (point : Vec3)
    (_hp : p ≠ Primitive.none) : Primitive.get_uv τ p point = Option.none :=
  rfl

/-- Witness for claim C10: the dispatch applied to a concrete sphere
primitive returns `None`. -/
theorem primitive_get_uv_returns_none_witness :
    Primitive.get_uv trig0 (Primitive.sphere sphere0) ⟨0, 0, 0⟩ = Option.none :=
  primitive_get_uv_returns_none trig0 (Primitive.sphere sphere0) ⟨0, 0, 0⟩ (by simp)

/-- Claim C9: the byte conversion maps channel value `0` to byte `0` and `1`
to byte `255`, and on every value whose scaled square root stays below the
byte range bound it is exactly `sqrt(v) * 255` truncated toward zero (the
floor, as the square root is nonnegative). -/
theorem channel_to_byte_formula :
    channel_to_byte 0 = 0 ∧ channel_to_byte 1 = 255 ∧
      ∀ v : ℚ, Rat.sqrt v * 255 < 256 →
        channel_to_byte v = Int.toNat ⌊Rat.sqrt v * 255⌋ := by
  have hs0 : Rat.sqrt 0 = 0 := rat_sqrt_eval (by norm_num) (by norm_num)
  have hs1 : Rat.sqrt 1 = 1 := rat_sqrt_eval (by norm_num) (by norm_num)
  refine ⟨?_, ?_, ?_⟩
  · rw [channel_to_byte, hs0]
    norm_num
  · rw [channel_to_byte, hs1]
    norm_num
    rfl
  · intro v hv
    rw [channel_to_byte]
    have hle : (⌊Rat.sqrt v * 255⌋ : ℚ) ≤ Rat.sqrt v * 255 := Int.floor_le _
    have h1 : ⌊Rat.sqrt v * 255⌋ < 256 := by
      exact_mod_cast lt_of_le_of_lt hle hv
    have h2 : Int.toNat ⌊Rat.sqrt v * 255⌋ ≤ 255 := by
      omega
    exact min_eq_left h2

/-- Witness for claim C9: at channel value `1/4` the square root is `1/2`,
`sqrt * 255 = 127.5 < 256`, and the theorem gives byte `127`. -/
theorem channel_to_byte_formula_witness : channel_to_byte (1/4) = 127 := by
  have hs : Rat.sqrt (1/4) = 1/2 := rat_sqrt_eval (by norm_num) (by norm_num)
  have h := channel_to_byte_formula.2.2 (1/4) (by rw [hs]; norm_num)
  rw [h, hs]
  have hf : ⌊(1/2 : ℚ) * 255⌋ = 127 := by
    rw [Int.floor_eq_iff]
    norm_num
  rw [hf]
  rfl

/-- Commutation between the two scalar-multiplication instances on `Vec3`. -/
lemma vec3_mul_comm (a : Vec3) (r : ℚ) : a * r = r * a := by
  cases a
  simp [vec3_smul, vec3_muls, mul_comm]

/-- Claim C8: for every camera built by `Camera::new` and all `u`, `v`,
`get_ray` returns a ray whose origin is the camera origin and whose direction
is `lower_left + u*horizontal + v*vertical - origin`, where
`lower_left = origin - horizontal/2 - vertical/2 - focus_dist*w` and `w` is
the normalisation of `origin - lookat`. -/
theorem camera_get_ray_formula (τ : Trig) (origin lookat vup : Vec3)
    (fov aspect_ratio aperture focus_dist u v time : ℚ) :
    let c := Camera.new τ origin lookat vup fov aspect_ratio aperture focus_dist
    (c.get_ray u v time).origin = origin ∧
    (c.get_ray u v time).direction =
      c.lower_left + u * c.horizontal + v * c.vertical - origin ∧
    c.lower_left = origin - c.horizontal / (2 : ℚ) - c.vertical / (2 : ℚ) -
      focus_dist * (origin - lookat).normalised := by
  intro c
  refine ⟨rfl, ?_, rfl⟩
  show c.lower_left + c.horizontal * u + c.vertical * v - c.origin = _
  rw [vec3_mul_comm, vec3_mul_comm]
  rfl

/-- Constant trace oracle: every ray returns colour `(1,1,1)` (a constant
white sky with no primitives) and counts one ray. -/
def traceOne : TraceFn := fun _ _ => (⟨1, 1, 1⟩, 1)

/-- The buffer content written by the most recent completed iteration
(`renderPass (n-1)`), or the fresh zero buffer when no iteration has run. -/
def lastPass (w h : ℕ) (trace : TraceFn) (n : ℕ) : SamplerProgress :=
  if n = 0 then SamplerProgress.new (w * h) 3 else renderPass w h trace (n - 1)

/-- The buffer content written two iterations ago (`renderPass (n-2)`), or
the fresh zero buffer when fewer than two iterations have run. -/
def secondLastPass (w h : ℕ) (trace : TraceFn) (n : ℕ) : SamplerProgress :=
  if n ≤ 1 then SamplerProgress.new (w * h) 3 else renderPass w h trace (n - 2)

/-- Expected state of the two physical buffers after `n` loop iterations:
the buffer of parity opposite to `n` holds the last pass, the other one the
pass before it. -/
def expBufs (w h : ℕ) (trace : TraceFn) (n : ℕ) : SamplerProgress × SamplerProgress :=
  if n % 2 = 0 then (lastPass w h trace n, secondLastPass w h trace n)
  else (secondLastPass w h trace n, lastPass w h trace n)

/-- Expected callback log after `n` loop iterations: one event per iteration
`i ≠ 0`, handing the buffer `prevId i` with the contents written at
iteration `i - 1`. -/
def expLog (w h : ℕ) (trace : TraceFn) (n : ℕ) : List CallbackEvent :=
  ((List.range n).filter fun i => i ≠ 0).map
    fun i => ⟨prevId i, renderPass w h trace (i - 1), i⟩

/-- Shifting: the last pass of `n` iterations is the second-to-last pass of
`n + 1` iterations. -/
lemma lastPass_secondLast_succ (w h : ℕ) (trace : TraceFn) (n : ℕ) :
    lastPass w h trace n = secondLastPass w h trace (n + 1) := by
  rcases n with _ | m
  · rfl
  · rw [lastPass, secondLastPass, if_neg (by omega), if_neg (by omega)]
    congr 1

/-- The expected log grows by at most one event per iteration. -/
lemma expLog_succ (w h : ℕ) (trace : TraceFn) (n : ℕ) :
    expLog w h trace (n + 1) =
      expLog w h trace n ++
        (if n ≠ 0 then [⟨prevId n, renderPass w h trace (n - 1), n⟩] else []) := by
  rw [expLog, expLog, List.range_succ, List.filter_append, List.map_append]
  congr 1
  by_cases hn : n = 0
  · subst hn
    simp
  · simp [hn]

/-- Characterisation of the implementations sampler loop: after `n`
iterations the buffers hold the last two passes (by parity) and the callback
log is exactly `expLog`. -/
lemma implLoop_spec (w h : ℕ) (trace : TraceFn) :
    ∀ n, implLoop w h trace n = (expBufs w h trace n, expLog w h trace n) := by
  intro n
  induction n with
  | zero => rfl
  | succ n ih =>
    show implIter w h trace (implLoop w h trace n) n = _
    rw [ih, implIter]
    by_cases hpar : n % 2 = 0
    · rw [if_pos hpar]
      have hsl : secondLastPass w h trace (n + 1) = lastPass w h trace n :=
        (lastPass_secondLast_succ w h trace n).symm
      have hlp : lastPass w h trace (n + 1) = renderPass w h trace n := by
        rw [lastPass, if_neg (Nat.succ_ne_zero n)]
        norm_num
      have hb : expBufs w h trace (n + 1) =
          (lastPass w h trace n, renderPass w h trace n) := by
        rw [expBufs, if_neg (by omega), hsl, hlp]
      have hb1 : (expBufs w h trace n).1 = lastPass w h trace n := by
        rw [expBufs, if_pos hpar]
      rw [expLog_succ, hb, hb1]
      by_cases hn0 : n = 0
      · simp [hn0]
      · have hid : prevId n = false := by
          simp [prevId, curId, hpar]
        have hlast : lastPass w h trace n = renderPass w h trace (n - 1) := by
          rw [lastPass, if_neg hn0]
        simp [hn0, hid, hlast]
    · rw [if_neg hpar]
      have hn0 : n ≠ 0 := by omega
      have hsl : secondLastPass w h trace (n + 1) = lastPass w h trace n :=
        (lastPass_secondLast_succ w h trace n).symm
      have hlp : lastPass w h trace (n + 1) = renderPass w h trace n := by
        rw [lastPass, if_neg (Nat.succ_ne_zero n)]
        norm_num
      have hb : expBufs w h trace (n + 1) =
          (renderPass w h trace n, lastPass w h trace n) := by
        rw [expBufs, if_pos (by omega), hsl, hlp]
      have hb2 : (expBufs w h trace n).2 = lastPass w h trace n := by
        rw [expBufs, if_neg hpar]
      rw [expLog_succ, hb, hb2]
      have hid : prevId n = true := by
        simp [prevId, curId, hpar]
      have hlast : lastPass w h trace n = renderPass w h trace (n - 1) := by
        rw [lastPass, if_neg hn0]
      simp [hn0, hid, hlast]

/-- The full observable behaviour of the implementations sampler: the loop
log followed by the final callback on the buffer of parity `n`. -/
lemma impl_sample_image_eval (n w h : ℕ) (trace : TraceFn) :
    ImplRandomSampler.sample_image n w h trace =
      expLog w h trace n ++ [⟨prevId n, lastPass w h trace n, n⟩] := by
  simp only [ImplRandomSampler.sample_image, implLoop_spec w h trace n]
  by_cases hpar : n % 2 = 0
  · rw [if_pos hpar]
    have hid : prevId n = false := by
      simp [prevId, curId, hpar]
    have hb1 : (expBufs w h trace n).1 = lastPass w h trace n := by
      rw [expBufs, if_pos hpar]
    rw [hid, hb1]
  · rw [if_neg hpar]
    have hid : prevId n = true := by
      simp [prevId, curId, hpar]
    have hb2 : (expBufs w h trace n).2 = lastPass w h trace n := by
      rw [expBufs, if_neg hpar]
    rw [hid, hb2]

/-- Claim C4: in the implementations sampler, the buffer written as `current`
at iteration `i` (`curId i`) is never the buffer read as `previous`
(`prevId i`); the callback log consists of exactly one event per iteration
`i ≠ 0` (iteration 0 is skipped) handing buffer `prevId i` with the contents
written at iteration `i - 1`, followed by one final event handing the buffer
written at the last iteration with the full sample count `n`; and the buffer
read at iteration `i ≥ 1` is the one written at iteration `i - 1`. -/
theorem sampler_double_buffering (n w h : ℕ) (trace : TraceFn) (hn : 1 ≤ n) :
    ImplRandomSampler.sample_image n w h trace =
      ((List.range n).filter fun i => i ≠ 0).map
        (fun i => ⟨prevId i, renderPass w h trace (i - 1), i⟩) ++
      [⟨prevId n, renderPass w h trace (n - 1), n⟩] ∧
    (∀ i, prevId i ≠ curId i) ∧
    (∀ i, 1 ≤ i → prevId i = curId (i - 1)) := by
  refine ⟨?_, ?_, ?_⟩
  · rw [impl_sample_image_eval, expLog]
    have hlast : lastPass w h trace n = renderPass w h trace (n - 1) := by
      rw [lastPass, if_neg (by omega)]
    rw [hlast]
  · intro i
    rw [prevId]
    cases curId i <;> simp
  · intro i hi
    rcases Nat.mod_two_eq_zero_or_one i with hp | hp
    · have hp' : (i - 1) % 2 = 1 := by omega
      simp [prevId, curId, hp, hp']
    · have hp' : (i - 1) % 2 = 0 := by omega
      simp [prevId, curId, hp, hp']

/-- Witness for claim C4: the callback log of a 2-sample 1×1 render matches
the predicted event list. -/
theorem sampler_double_buffering_witness :
    ImplRandomSampler.sample_image 2 1 1 traceOne =
      ((List.range 2).filter fun i => i ≠ 0).map
        (fun i => ⟨prevId i, renderPass 1 1 traceOne (i - 1), i⟩) ++
      [⟨prevId 2, renderPass 1 1 traceOne 1, 2⟩] :=
  (sampler_double_buffering 2 1 1 traceOne (by norm_num)).1

/-- Claim C1 (failing evaluation): the buffer-returning
`RandomSampler::sample_image` of camera.rs, rendering a 1×1 image with 2
samples of a constant white sky (every trace returns `(1,1,1)`), returns a
buffer whose pixel is `(1/2, 1/2, 1/2)` — the sky colour divided by the
sample count — not the sky colour itself: each pass overwrites the
accumulator and the final presentation fold divides the single stored pass
by `samples_per_pixel` once. -/
theorem random_sampler_const_sky_failing_eval :
    (RandomSampler.sample_image 2 1 1 traceOne).current_image = [1/2, 1/2, 1/2] ∧
    ¬ (RandomSampler.sample_image 2 1 1 traceOne).current_image = [1, 1, 1] := by
  have h2 : runBufs 1 1 traceOne 2 = (renderPass 1 1 traceOne 1, renderPass 1 1 traceOne 0) :=
    rfl
  have himg : (RandomSampler.sample_image 2 1 1 traceOne).current_image =
      List.zipWith (fun pres acc => pres + (acc - pres) / ((2 : ℕ) : ℚ)) [0, 0, 0] [1, 1, 1] := by
    simp only [RandomSampler.sample_image, h2]
    rfl
  rw [himg]
  norm_num [List.zipWith]
